import Mathlib

/-!
Verification of the vote-delegation and vote-override reconciliation engine of
the dao-contracts repository. `Uint128` values are modelled as `Nat`;
operations that overflow or underflow in `cosmwasm_std` (checked subtraction,
`SubAssign`, conversion from `Uint256`) are modelled as `Option`/`Except`
failures. Storage maps are modelled as association lists, and the height
snapshot mechanism of `cw_storage_plus` as an explicit write log.
-/

deriving instance DecidableEq for Except

namespace DaoVoting

/-- One more than the maximum `Uint128` value. -/
def UINT128_BOUND : Nat := 2 ^ 128

/-- The fixed-point denominator of `cosmwasm_std::Decimal` (`10^18`). -/
def DECIMAL_FRACTIONAL : Nat := 10 ^ 18

/-- `cosmwasm_std::Decimal`: a fixed-point decimal represented by its atomics
(the numerator over `10^18`). -/
structure Decimal where
  atomics : Nat
deriving Repr, DecidableEq

/-- `Decimal::percent(x)`, i.e. `x / 100`, which is `x * 10^16` atomics. -/
def Decimal.percent (x : Nat) : Decimal :=
  ⟨x * 10 ^ 16⟩

/-- `Decimal::is_zero`. -/
def Decimal.is_zero (d : Decimal) : Bool :=
  d.atomics == 0

/-- `Uint128::mul_floor(Decimal)`: multiply at full precision, floor-divide by
the fractional denominator, and convert back to `Uint128`; the conversion
fails (a panic in the Rust source) when the result exceeds the 128-bit
bound. -/
def mul_floor (vp : Nat) (d : Decimal) : Option Nat :=
  let r := vp * d.atomics / DECIMAL_FRACTIONAL
  if r < UINT128_BOUND then some r else none

/-- `dao_voting::delegation::calculate_delegated_vp`: zero when the percent or
the voting power is zero, otherwise the floor multiplication. -/
def calculate_delegated_vp (vp : Nat) (percent : Decimal) : Option Nat :=
  if percent.is_zero || vp == 0 then some 0
  else mul_floor vp percent

/-- `dao_voting::proposal::Ballot`: a vote cast for a proposal. -/
structure Ballot (Vote : Type) where
  power : Nat
  vote : Vote
  rationale : Option String
deriving Repr, DecidableEq

/-- `dao_voting::delegation::DelegationResponse`: one entry of a `Delegations`
query response. -/
structure DelegationResponse where
  delegate : String
  percent : Decimal
  active : Bool
deriving Repr, DecidableEq

/-- `dao_voting::delegation::UnvotedDelegatedVotingPowerResponse`. -/
structure UnvotedDelegatedVotingPowerResponse where
  total : Nat
  effective : Nat
deriving Repr, DecidableEq

/-- `dao_voting::voting::VotingPowerWithDelegation` (declared outside the
given sources); `handle_delegate_vote_override` reads only its `individual`
field, the voter's own voting power at the proposal start height. -/
structure VotingPowerWithDelegation where
  individual : Nat
deriving Repr, DecidableEq

/-- The `ballots : Map<(u64, &Addr), Ballot<Vote>>` storage of a proposal
module, as an association list from `(proposal id, voter address)` keys to
ballots. -/
def BallotMap (Vote : Type) : Type :=
  List ((Nat × String) × Ballot Vote)

/-- `Map::may_load`. -/
def BallotMap.may_load {Vote : Type} (m : BallotMap Vote) (k : Nat × String) :
    Option (Ballot Vote) :=
  (m.find? (fun p => p.1 == k)).map (fun p => p.2)

/-- `Map::save`: overwrite the entry for the key if present, insert it
otherwise. -/
def BallotMap.save {Vote : Type} (m : BallotMap Vote) (k : Nat × String)
    (b : Ballot Vote) : BallotMap Vote :=
  if m.any (fun p => p.1 == k) then
    m.map (fun p => if p.1 == k then (k, b) else p)
  else
    (k, b) :: m

/-- One iteration of the delegation loop in
`dao_voting::delegation::handle_delegate_vote_override`. The accumulator
carries the proposal module ballots together with the list of `remove_vote`
callback invocations (vote, power removed) performed so far. Inactive
delegations and delegates without a ballot are skipped; otherwise the new
effective unvoted delegated VP is `min(total - voter_delegated_vp, effective)`
from the delegate's current UDVP, and exactly when it is strictly below the
previous effective value the difference is removed from the delegate's ballot
and passed to `remove_vote`. -/
def overrideStep {Vote : Type}
    (udvp : String → UnvotedDelegatedVotingPowerResponse)
    (proposal_id : Nat) (vote_power : VotingPowerWithDelegation)
    (acc : BallotMap Vote × List (Vote × Nat)) (d : DelegationResponse) :
    Except String (BallotMap Vote × List (Vote × Nat)) :=
  if !d.active then .ok acc
  else
    match acc.1.may_load (proposal_id, d.delegate) with
    | none => .ok acc
    | some delegate_ballot =>
      let prev_udvp := udvp d.delegate
      match calculate_delegated_vp vote_power.individual d.percent with
      | none => .error "overflow in mul_floor"
      | some voter_delegated_vp =>
        if voter_delegated_vp ≤ prev_udvp.total then
          let new_effective :=
            min (prev_udvp.total - voter_delegated_vp) prev_udvp.effective
          if new_effective < prev_udvp.effective then
            let diff := prev_udvp.effective - new_effective
            if diff ≤ delegate_ballot.power then
              .ok (acc.1.save (proposal_id, d.delegate)
                     { delegate_ballot with power := delegate_ballot.power - diff },
                   acc.2 ++ [(delegate_ballot.vote, diff)])
            else .error "underflow in ballot power"
          else .ok acc
        else .error "underflow in checked_sub"

/-- `dao_voting::delegation::handle_delegate_vote_override`. When a delegation
module is configured, the delegator's delegations as of the proposal start
height are queried (`delegations` is that query's result) and each is
processed in order; the result is the updated ballots together with the
sequence of `remove_vote` invocations. With no delegation module the function
returns immediately. -/
def handle_delegate_vote_override {Vote : Type}
    (delegation_module : Option String)
    (delegations : List DelegationResponse)
    (udvp : String → UnvotedDelegatedVotingPowerResponse)
    (proposal_id : Nat) (vote_power : VotingPowerWithDelegation)
    (ballots : BallotMap Vote) :
    Except String (BallotMap Vote × List (Vote × Nat)) :=
  match delegation_module with
  | none => .ok (ballots, [])
  | some _ =>
      delegations.foldlM (overrideStep udvp proposal_id vote_power) (ballots, [])

/-- Claim C9: with `delegation_module = None`, `handle_delegate_vote_override`
returns `Ok(())` and has no effect: the ballots are returned unchanged, no
`remove_vote` invocation happens, and — since the statement is universally
quantified over the delegations query result and the UDVP query oracle — the
result does not depend on anything the delegation module or ballot storage
holds. -/
theorem handle_delegate_vote_override_none_noop {Vote : Type}
    (delegations : List DelegationResponse)
    (udvp : String → UnvotedDelegatedVotingPowerResponse)
    (proposal_id : Nat) (vote_power : VotingPowerWithDelegation)
    (ballots : BallotMap Vote) :
    handle_delegate_vote_override none delegations udvp proposal_id vote_power
      ballots = .ok (ballots, []) := rfl

/-- Claim C3: `calculate_delegated_vp` returns zero when the voting power or
the percent is zero, and otherwise the floor of `vp × percent` in exact
integer arithmetic, whenever that floor fits in 128 bits. -/
theorem calculate_delegated_vp_floor (vp : Nat) (percent : Decimal)
    (hfit : vp * percent.atomics / DECIMAL_FRACTIONAL < UINT128_BOUND) :
    (vp = 0 ∨ percent.atomics = 0 →
      calculate_delegated_vp vp percent = some 0) ∧
    calculate_delegated_vp vp percent =
      some (vp * percent.atomics / DECIMAL_FRACTIONAL) := by
  constructor
  · intro h
    rcases h with h | h <;>
      simp [calculate_delegated_vp, Decimal.is_zero, h]
  · by_cases hp : percent.atomics = 0
    · simp [calculate_delegated_vp, Decimal.is_zero, hp]
    · by_cases hv : vp = 0
      · simp [calculate_delegated_vp, Decimal.is_zero, hv, hp]
      · simp [calculate_delegated_vp, Decimal.is_zero, hp, hv, mul_floor, hfit]

/-- Witness for claim C3: a 50% share of total voting power 9 is floored to 4. -/
theorem calculate_delegated_vp_floor_witness :
    calculate_delegated_vp 9 (Decimal.percent 50) = some 4 := by
  have h := (calculate_delegated_vp_floor 9 (Decimal.percent 50)
    (by norm_num [Decimal.percent, DECIMAL_FRACTIONAL, UINT128_BOUND])).2
  norm_num [Decimal.percent, DECIMAL_FRACTIONAL] at h
  exact h

/-- Claim C1: in the vote-override reconciler, a delegation of the overriding
delegator whose delegate has a ballot on the proposal has the new effective
unvoted delegated VP computed as `min(total - voter_delegated_vp, effective)`
from the delegate's current UDVP; exactly when it is strictly below the
previous effective value, the difference is subtracted from the delegate's
ballot power, passed to the `remove_vote` callback, and the ballot is saved
with the reduced power, while an inactive delegation, a delegate without a
ballot, or a new effective value at least the previous one leaves the ballots
untouched and triggers no callback. -/
theorem handle_delegate_vote_override_reconciles {Vote : Type}
    (m : String) (d : DelegationResponse)
    (udvp : String → UnvotedDelegatedVotingPowerResponse)
    (proposal_id : Nat) (vote_power : VotingPowerWithDelegation)
    (ballots : BallotMap Vote) (b : Ballot Vote) (vdvp : Nat)
    (hload : ballots.may_load (proposal_id, d.delegate) = some b)
    (hvd : calculate_delegated_vp vote_power.individual d.percent = some vdvp)
    (hsub : vdvp ≤ (udvp d.delegate).total)
    (hpow : (udvp d.delegate).effective -
        min ((udvp d.delegate).total - vdvp) (udvp d.delegate).effective ≤
        b.power) :
    (d.active = false →
      handle_delegate_vote_override (some m) [d] udvp proposal_id vote_power
        ballots = .ok (ballots, [])) ∧
    (∀ ballots2 : BallotMap Vote,
      ballots2.may_load (proposal_id, d.delegate) = none →
      handle_delegate_vote_override (some m) [d] udvp proposal_id vote_power
        ballots2 = .ok (ballots2, [])) ∧
    (d.active = true →
      min ((udvp d.delegate).total - vdvp) (udvp d.delegate).effective <
        (udvp d.delegate).effective →
      handle_delegate_vote_override (some m) [d] udvp proposal_id vote_power
        ballots =
        .ok (ballots.save (proposal_id, d.delegate)
              { b with
                power := b.power - ((udvp d.delegate).effective -
                  min ((udvp d.delegate).total - vdvp)
                    (udvp d.delegate).effective) },
             [(b.vote, (udvp d.delegate).effective -
                min ((udvp d.delegate).total - vdvp)
                  (udvp d.delegate).effective)])) ∧
    (d.active = true →
      (udvp d.delegate).effective ≤
        min ((udvp d.delegate).total - vdvp) (udvp d.delegate).effective →
      handle_delegate_vote_override (some m) [d] udvp proposal_id vote_power
        ballots = .ok (ballots, [])) := by
  refine ⟨?_, ?_, ?_, ?_⟩
  · intro hact
    simp [handle_delegate_vote_override, List.foldlM, overrideStep, hact]
  · intro ballots2 hnone
    cases hact : d.active <;>
      simp [handle_delegate_vote_override, List.foldlM, overrideStep, hnone,
        hact]
  · intro hact hlt
    simp only [handle_delegate_vote_override, List.foldlM, overrideStep, hact,
      Bool.not_true, Bool.false_eq_true, if_false, hload, hvd, if_pos hsub,
      if_pos hlt, if_pos hpow]
    rfl
  · intro hact hge
    have hnlt : ¬ min ((udvp d.delegate).total - vdvp)
        (udvp d.delegate).effective < (udvp d.delegate).effective :=
      Nat.not_lt.mpr hge
    simp only [handle_delegate_vote_override, List.foldlM, overrideStep, hact,
      Bool.not_true, Bool.false_eq_true, if_false, hload, hvd, if_pos hsub,
      if_neg hnlt]
    rfl

/-- Witness for claim C1: a delegate credited `total = 5, effective = 5` whose
overriding delegator removes a delegated share of 4 loses 4 ballot power
(from 10 down to 6), and the callback is invoked with exactly that
difference. -/
theorem handle_delegate_vote_override_reconciles_witness :
    handle_delegate_vote_override (some "dm")
        [⟨"delegate", Decimal.percent 100, true⟩]
        (fun _ => ⟨5, 5⟩) 1 ⟨4⟩
        [((1, "delegate"), (⟨10, true, none⟩ : Ballot Bool))] =
      .ok ([((1, "delegate"), ⟨6, true, none⟩)], [(true, 4)]) := by
  have h := (handle_delegate_vote_override_reconciles "dm"
    ⟨"delegate", Decimal.percent 100, true⟩ (fun _ => ⟨5, 5⟩) 1 ⟨4⟩
    [((1, "delegate"), (⟨10, true, none⟩ : Ballot Bool))] ⟨10, true, none⟩ 4
    (by decide)
    (by norm_num [calculate_delegated_vp, Decimal.is_zero, Decimal.percent,
      mul_floor, DECIMAL_FRACTIONAL, UINT128_BOUND])
    (by decide) (by decide)).2.2.1 rfl (by decide)
  simpa [BallotMap.save] using h

/-- Exact floor multiplication of a voting power by a `Decimal`, without the
128-bit conversion. -/
def floorMul (vp : Nat) (d : Decimal) : Nat :=
  vp * d.atomics / DECIMAL_FRACTIONAL

/-- Modelled from the spec: the delegation contract's
`UnvotedDelegatedVotingPower` query response (the `dao-vote-delegation`
contract implementation is not among the given sources). `total` is the
delegate's not-yet-voted delegated VP for the proposal; `effective` caps it at
`delegate_total_vp_at_start_height × vp_cap_percent` (floor), using the cap
percent in effect at the proposal start height, or equals `total` when no cap
is configured at that height. -/
def udvpQuery (total delegate_total_vp : Nat) (vp_cap_percent : Option Decimal) :
    UnvotedDelegatedVotingPowerResponse :=
  match vp_cap_percent with
  | none => ⟨total, total⟩
  | some cap => ⟨total, min total (floorMul delegate_total_vp cap)⟩

/-- The UDVP update recorded when a delegator overrides their delegate's vote:
the vote hook removes the voter's delegated VP from `total`, and the new
`effective` is the value `handle_delegate_vote_override` computes,
`min(total - voter_delegated_vp, effective)`. -/
def udvpAfterOverride (prev : UnvotedDelegatedVotingPowerResponse)
    (voter_delegated_vp : Nat) : UnvotedDelegatedVotingPowerResponse :=
  ⟨prev.total - voter_delegated_vp,
   min (prev.total - voter_delegated_vp) prev.effective⟩

/-- Claim C2: every `UnvotedDelegatedVotingPower` response satisfies
`effective ≤ total`, and `effective ≤ delegate_total_vp × vp_cap_percent`
(floored) when a cap is configured; both bounds are preserved by the override
reconciliation update, which caps the new effective value with
`min(total - voter_delegated_vp, effective)`. -/
theorem udvp_cap_invariant (total delegate_total_vp : Nat)
    (vp_cap_percent : Option Decimal)
    (prev : UnvotedDelegatedVotingPowerResponse) (voter_delegated_vp : Nat) :
    (udvpQuery total delegate_total_vp vp_cap_percent).effective ≤ total ∧
    (∀ cap, vp_cap_percent = some cap →
      (udvpQuery total delegate_total_vp vp_cap_percent).effective ≤
        floorMul delegate_total_vp cap) ∧
    (prev.effective ≤ prev.total →
      (udvpAfterOverride prev voter_delegated_vp).effective ≤
        (udvpAfterOverride prev voter_delegated_vp).total) ∧
    (∀ capVal, prev.effective ≤ capVal →
      (udvpAfterOverride prev voter_delegated_vp).effective ≤ capVal) := by
  refine ⟨?_, ?_, ?_, ?_⟩
  · cases vp_cap_percent <;> simp [udvpQuery]
  · intro cap hcap
    subst hcap
    simp [udvpQuery]
  · intro _
    simp [udvpAfterOverride]
  · intro capVal hcap
    exact le_trans (Nat.min_le_right _ _) hcap

/-- Witness for claim C2: with a 50% cap, total VP 9 and 9 delegated, the
query reports `total = 9, effective = 4`, and after an override removing 3 the
updated values `total = 6, effective = 4` still satisfy both bounds. -/
theorem udvp_cap_invariant_witness :
    udvpQuery 9 9 (some (Decimal.percent 50)) = ⟨9, 4⟩ ∧
    (udvpQuery 9 9 (some (Decimal.percent 50))).effective ≤ 9 ∧
    (udvpQuery 9 9 (some (Decimal.percent 50))).effective ≤
      floorMul 9 (Decimal.percent 50) ∧
    udvpAfterOverride ⟨9, 4⟩ 3 = ⟨6, 4⟩ ∧
    (udvpAfterOverride ⟨9, 4⟩ 3).effective ≤ (udvpAfterOverride ⟨9, 4⟩ 3).total ∧
    (udvpAfterOverride ⟨9, 4⟩ 3).effective ≤ floorMul 9 (Decimal.percent 50) := by
  have h := udvp_cap_invariant 9 9 (some (Decimal.percent 50)) ⟨9, 4⟩ 3
  refine ⟨?_, h.1, h.2.1 (Decimal.percent 50) rfl, ?_, h.2.2.1 (by decide),
    h.2.2.2 (floorMul 9 (Decimal.percent 50)) ?_⟩ <;>
    norm_num [udvpQuery, udvpAfterOverride, floorMul, Decimal.percent,
      DECIMAL_FRACTIONAL]

/-- Modelled from the spec: the history of the config's `vp_cap_percent` as
height-indexed snapshot storage — chronological writes of `(height, new
value)` over an initial value, where a read "as of height h" sees only writes
strictly below `h` (the one-block snapshot delay). -/
def capPercentAt (initial : Option Decimal)
    (writes : List (Nat × Option Decimal)) (h : Nat) : Option Decimal :=
  writes.foldl (fun acc w => if w.1 < h then w.2 else acc) initial

/-- Modelled from the spec: the `UnvotedDelegatedVotingPower` response for a
proposal is computed from the cap percent in effect at the proposal's start
height, not the current one. -/
def udvpForProposal (initial : Option Decimal)
    (writes : List (Nat × Option Decimal))
    (start_height total delegate_total_vp : Nat) :
    UnvotedDelegatedVotingPowerResponse :=
  udvpQuery total delegate_total_vp (capPercentAt initial writes start_height)

/-- Claim C4: an `UpdateConfig` that changes (or removes) `vp_cap_percent` at
height `update_height` leaves the `UnvotedDelegatedVotingPower` response
unchanged for every proposal whose start height does not exceed the update
height: the effective value is frozen to the cap percent in effect at the
proposal's start height. -/
theorem udvp_unchanged_by_cap_update (initial : Option Decimal)
    (writes : List (Nat × Option Decimal)) (update_height : Nat)
    (new_cap : Option Decimal) (start_height total delegate_total_vp : Nat)
    (hstart : start_height ≤ update_height) :
    udvpForProposal initial (writes ++ [(update_height, new_cap)]) start_height
        total delegate_total_vp =
      udvpForProposal initial writes start_height total delegate_total_vp := by
  have hnl : ¬ update_height < start_height := Nat.not_lt.mpr hstart
  simp [udvpForProposal, capPercentAt, List.foldl_append, hnl]

/-- Witness for claim C4: a proposal started at height 100 under a 50% cap
keeps `effective = 4` (of `total = 9`) after the cap is removed at height
150. -/
theorem udvp_unchanged_by_cap_update_witness :
    udvpForProposal (some (Decimal.percent 50)) [(150, none)] 100 9 9 =
      udvpForProposal (some (Decimal.percent 50)) [] 100 9 9 ∧
    udvpForProposal (some (Decimal.percent 50)) [(150, none)] 100 9 9 =
      ⟨9, 4⟩ := by
  have h := udvp_unchanged_by_cap_update (some (Decimal.percent 50)) []
    150 none 100 9 9 (by norm_num)
  refine ⟨h, ?_⟩
  rw [show ([] ++ [((150 : Nat), (none : Option Decimal))]) = [(150, none)]
    from rfl] at h
  rw [h]
  norm_num [udvpForProposal, capPercentAt, udvpQuery, floorMul,
    Decimal.percent, DECIMAL_FRACTIONAL]

/-- Modelled from the spec: a generic height-indexed snapshot cell, the
`cw_storage_plus::SnapshotMap` storage pattern used by the delegation
contract for delegations, delegate registrations, and per-delegate total
delegated VP — an append-only chronological write log. -/
structure SnapshotCell (α : Type) where
  writes : List (Nat × α)

/-- Reading a snapshot cell "as of height h" returns the latest write with
height strictly below `h`: a write at height `H` only becomes visible to
queries from height `H + 1` on. -/
def SnapshotCell.valueAt {α : Type} (c : SnapshotCell α) (h : Nat) : Option α :=
  c.writes.foldl (fun acc w => if w.1 < h then some w.2 else acc) none

/-- Writing at the current block height appends to the log. -/
def SnapshotCell.write {α : Type} (c : SnapshotCell α) (h : Nat) (v : α) :
    SnapshotCell α :=
  ⟨c.writes ++ [(h, v)]⟩

/-- Claim C5: a snapshot write performed at height `H` — a delegation upsert,
a delegate's `total_delegated_vp` update, or a registration — is not reflected
by reads at height `H` (they see exactly what they saw before the write) but
is reflected by reads at height `H + 1`. -/
theorem snapshot_write_delay {α : Type} (c : SnapshotCell α) (H : Nat) (v : α) :
    (c.write H v).valueAt H = c.valueAt H ∧
    (c.write H v).valueAt (H + 1) = some v := by
  constructor
  · simp [SnapshotCell.write, SnapshotCell.valueAt, List.foldl_append]
  · simp [SnapshotCell.write, SnapshotCell.valueAt, List.foldl_append,
      Nat.lt_succ_self]

/-- A stored delegation as the delegation contract keeps it: the expiry height
is frozen in the record itself. -/
structure DelegationRecord where
  delegate : String
  percent : Decimal
  expires_at_height : Option Nat
deriving Repr, DecidableEq

/-- Modelled from the spec: a delegation created (or updated) at height `h`
freezes `expires_at_height = h + delegation_validity_blocks` from the config
in effect, or never expires when no validity window is configured. -/
def mkDelegation (delegate : String) (percent : Decimal) (h : Nat)
    (validity_blocks : Option Nat) : DelegationRecord :=
  ⟨delegate, percent, validity_blocks.map (fun v => h + v)⟩

/-- Modelled from the spec: lazy activity evaluation at read time — a
delegation is active at query height `h` iff its delegate is registered at `h`
and it has not expired, i.e. `expires_at_height` is absent or strictly above
`h` (a delegation with `expires_at_height = H` is active at `H - 1` and
inactive at `H`, per the spec's expiry invariant). -/
def delegationActiveAt (d : DelegationRecord) (delegate_registered : Bool)
    (h : Nat) : Bool :=
  delegate_registered &&
    match d.expires_at_height with
    | none => true
    | some e => decide (h < e)

/-- Modelled from the spec: the delegation-ledger state touched by an
`UpdateConfig` changing `delegation_validity_blocks` — the config value plus
the stored delegation records keyed by (delegator, delegate). -/
structure DelegationLedgerState where
  delegation_validity_blocks : Option Nat
  delegations : List ((String × String) × DelegationRecord)
deriving Repr, DecidableEq

/-- Modelled from the spec: `UpdateConfig` with a new
`delegation_validity_blocks` rewrites only the config value; stored
delegations are not re-derived. -/
def update_delegation_validity_blocks (st : DelegationLedgerState)
    (v : Option Nat) : DelegationLedgerState :=
  ⟨v, st.delegations⟩

/-- Claim C6: a delegation with `expires_at_height = E` is active at query
height `E - 1` and inactive at query height `E` (activity being evaluated
lazily by `delegationActiveAt`); a record created at height `h` under a
validity window `v` freezes its expiry at `h + v`; and changing
`delegation_validity_blocks` in the config alters no stored delegation
record. -/
theorem delegation_expiry_boundary (d : DelegationRecord) (E : Nat)
    (delegate percent h v : Nat) (st : DelegationLedgerState)
    (new_validity : Option Nat)
    (hexp : d.expires_at_height = some E) (hpos : 1 ≤ E) :
    delegationActiveAt d true (E - 1) = true ∧
    delegationActiveAt d true E = false ∧
    (mkDelegation (toString delegate) (Decimal.percent percent) h
        (some v)).expires_at_height = some (h + v) ∧
    (update_delegation_validity_blocks st new_validity).delegations =
      st.delegations ∧
    (update_delegation_validity_blocks st
        new_validity).delegation_validity_blocks = new_validity := by
  refine ⟨?_, ?_, rfl, rfl, rfl⟩
  · simp [delegationActiveAt, hexp]
    omega
  · simp [delegationActiveAt, hexp]

/-- Witness for claim C6: a delegation expiring at height 110 is active at
height 109 and inactive at height 110, and lowering the validity window to 5
afterwards leaves the stored record untouched. -/
theorem delegation_expiry_boundary_witness :
    delegationActiveAt ⟨"delegate", Decimal.percent 100, some 110⟩ true 109 =
      true ∧
    delegationActiveAt ⟨"delegate", Decimal.percent 100, some 110⟩ true 110 =
      false ∧
    (update_delegation_validity_blocks
        ⟨some 10, [(("delegator", "delegate"),
          ⟨"delegate", Decimal.percent 100, some 110⟩)]⟩ (some 5)).delegations =
      [(("delegator", "delegate"),
        ⟨"delegate", Decimal.percent 100, some 110⟩)] := by
  have h := delegation_expiry_boundary
    ⟨"delegate", Decimal.percent 100, some 110⟩ 110 0 100 100 10
    ⟨some 10, [(("delegator", "delegate"),
      ⟨"delegate", Decimal.percent 100, some 110⟩)]⟩ (some 5) rfl
    (by norm_num)
  exact ⟨h.1, h.2.1, h.2.2.2.1⟩

/-- The delegation contract's typed errors relevant to the delegation
limit. -/
inductive ContractError where
  | maxDelegationsReached (max current : Nat)
deriving Repr, DecidableEq

/-- Modelled from the spec and `test_max_delegations`: the `max_delegations`
check in the `Delegate` execute handler. `current` is the delegator's number
of existing active delegations and `existing` tells whether a delegation to
the target delegate already exists; the count resulting from the call
(unchanged for an update, one more for a new delegation) must not exceed the
configured maximum, else the call fails with
`MaxDelegationsReached(max, current)`. -/
def check_max_delegations (max_delegations current : Nat) (existing : Bool) :
    Except ContractError Unit :=
  let resulting := if existing then current else current + 1
  if max_delegations < resulting then
    .error (.maxDelegationsReached max_delegations current)
  else .ok ()

/-- Claim C7: with `max_delegations = m`, a `Delegate` call creating a new
delegation while the delegator already has `m` active delegations fails with
`MaxDelegationsReached(m, m)`; an update of an existing delegation succeeds
whenever the current count does not exceed `m`; and when the current count
exceeds a (lowered) limit even an update is rejected, with
`MaxDelegationsReached(m, current)`. -/
theorem max_delegations_check (m current : Nat) :
    check_max_delegations m m false =
      .error (.maxDelegationsReached m m) ∧
    (current ≤ m → check_max_delegations m current true = .ok ()) ∧
    (m < current → check_max_delegations m current true =
      .error (.maxDelegationsReached m current)) := by
  refine ⟨?_, ?_, ?_⟩
  · simp [check_max_delegations]
  · intro hle
    simp [check_max_delegations, Nat.not_lt.mpr hle]
  · intro hlt
    simp [check_max_delegations, hlt]

/-- Witness for claim C7, matching `test_max_delegations`: with limit 2 and 2
existing delegations, a third new delegate fails with
`MaxDelegationsReached(2, 2)` while an update succeeds; after lowering the
limit to 1 the update fails with `MaxDelegationsReached(1, 2)`. -/
theorem max_delegations_check_witness :
    check_max_delegations 2 2 false =
      .error (.maxDelegationsReached 2 2) ∧
    check_max_delegations 2 2 true = .ok () ∧
    check_max_delegations 1 2 true =
      .error (.maxDelegationsReached 1 2) := by
  refine ⟨(max_delegations_check 2 2).1,
    (max_delegations_check 2 2).2.1 (by norm_num),
    (max_delegations_check 1 2).2.2 (by norm_num)⟩

namespace ApprovalSingle

/-- `dao-pre-propose-approval-single`: the legacy (v2.4.1) `Vote` enum used by
the explicit migration schema. -/
inductive VoteV241 where
  | yes
  | no
  | abstain
deriving Repr, DecidableEq

/-- Legacy (v2.4.1) `SingleChoiceAutoVote`. -/
structure SingleChoiceAutoVoteV241 where
  vote : VoteV241
  rationale : Option String
deriving Repr, DecidableEq

/-- Legacy (v2.4.1) `SingleChoiceProposeMsg`; the proposal messages are kept
abstract in the type parameter `M` (`CosmosMsg` in the source). -/
structure SingleChoiceProposeMsgV241 (M : Type) where
  title : String
  description : String
  msgs : List M
  proposer : Option String
  vote : Option SingleChoiceAutoVoteV241
deriving Repr, DecidableEq

/-- Legacy (v2.4.1) `DepositRefundPolicy`. -/
inductive DepositRefundPolicyV241 where
  | always
  | onlyPassed
  | never
deriving Repr, DecidableEq

/-- Legacy (v2.4.1) `CheckedDenom`. -/
inductive CheckedDenomV241 where
  | native (denom : String)
  | cw20 (addr : String)
deriving Repr, DecidableEq

/-- Legacy (v2.4.1) `CheckedDepositInfo`. -/
structure CheckedDepositInfoV241 where
  denom : CheckedDenomV241
  amount : Nat
  refund_policy : DepositRefundPolicyV241
deriving Repr, DecidableEq

/-- Legacy (v2.4.1) proposal status. -/
inductive ProposalStatusV241 where
  | pending
  | approved (created_proposal_id : Nat)
  | rejected
deriving Repr, DecidableEq

/-- Legacy (v2.4.1) proposal layout, read with the explicit legacy schema in
`migrate`. -/
structure ProposalV241 (M : Type) where
  status : ProposalStatusV241
  approval_id : Nat
  proposer : String
  msg : SingleChoiceProposeMsgV241 M
  deposit : Option CheckedDepositInfoV241
deriving Repr, DecidableEq

/-- Current `dao_voting::voting::Vote`. -/
inductive Vote where
  | yes
  | no
  | abstain
deriving Repr, DecidableEq

/-- Current `dao_voting::voting::SingleChoiceAutoVote`. -/
structure SingleChoiceAutoVote where
  vote : Vote
  rationale : Option String
deriving Repr, DecidableEq

/-- Current `dao_voting::proposal::SingleChoiceProposeMsg`. -/
structure SingleChoiceProposeMsg (M : Type) where
  title : String
  description : String
  msgs : List M
  proposer : Option String
  vote : Option SingleChoiceAutoVote
deriving Repr, DecidableEq

/-- Current `dao_voting::deposit::DepositRefundPolicy`. -/
inductive DepositRefundPolicy where
  | always
  | onlyPassed
  | never
deriving Repr, DecidableEq

/-- Current `cw_denom::CheckedDenom`. -/
inductive CheckedDenom where
  | native (denom : String)
  | cw20 (addr : String)
deriving Repr, DecidableEq

/-- Current `dao_voting::deposit::CheckedDepositInfo`. -/
structure CheckedDepositInfo where
  denom : CheckedDenom
  amount : Nat
  refund_policy : DepositRefundPolicy
deriving Repr, DecidableEq

/-- Current `dao_voting::approval::ApprovalProposalStatus`. -/
inductive ApprovalProposalStatus where
  | pending
  | approved (created_proposal_id : Nat)
  | rejected
deriving Repr, DecidableEq

/-- Current proposal layout of `dao-pre-propose-approval-single` (fields as
used by `migrate`: the legacy fields plus the stored approver address). -/
structure Proposal (M : Type) where
  status : ApprovalProposalStatus
  approval_id : Nat
  approver : String
  proposer : String
  msg : SingleChoiceProposeMsg M
  deposit : Option CheckedDepositInfo
deriving Repr, DecidableEq

/-- The vote conversion performed inline in `migrate`. -/
def convertVote : VoteV241 → Vote
  | .yes => .yes
  | .no => .no
  | .abstain => .abstain

/-- The auto-vote conversion performed inline in `migrate`. -/
def convertAutoVote (v : SingleChoiceAutoVoteV241) : SingleChoiceAutoVote :=
  ⟨convertVote v.vote, v.rationale⟩

/-- The propose-message conversion performed inline in `migrate`: every field
is carried over. -/
def convertMsg {M : Type} (m : SingleChoiceProposeMsgV241 M) :
    SingleChoiceProposeMsg M :=
  ⟨m.title, m.description, m.msgs, m.proposer, m.vote.map convertAutoVote⟩

/-- The denom conversion performed inline in `migrate`. -/
def convertDenom : CheckedDenomV241 → CheckedDenom
  | .native denom => .native denom
  | .cw20 addr => .cw20 addr

/-- The refund-policy conversion performed inline in `migrate`. -/
def convertRefundPolicy : DepositRefundPolicyV241 → DepositRefundPolicy
  | .always => .always
  | .onlyPassed => .onlyPassed
  | .never => .never

/-- The deposit conversion performed inline in `migrate`. -/
def convertDeposit (d : CheckedDepositInfoV241) : CheckedDepositInfo :=
  ⟨convertDenom d.denom, d.amount, convertRefundPolicy d.refund_policy⟩

/-- The typed error of the pre-propose contracts, restricted to the variants
`migrate` produces. -/
inductive PreProposeError where
  | std (msg : String)
  | invalidVersion
deriving Repr, DecidableEq

/-- The `MigrateMsg` of `dao-pre-propose-approval-single`: the
`FromUnderV250` variant handled by `migrate`, and the catch-all for any other
variant (which `migrate` rejects as not implemented). -/
inductive MigrateMsg where
  | fromUnderV250
  | other
deriving Repr, DecidableEq

/-- A cw2 contract version. -/
structure Version where
  major : Nat
  minor : Nat
  patch : Nat
deriving Repr, DecidableEq

/-- The contract name set by `dao-pre-propose-approval-single`. -/
def CONTRACT_NAME : String := "crates.io:dao-pre-propose-approval-single"

/-- Modelled from the spec: the base pre-propose `migrate` called first by the
contract's `migrate` entry point (the `dao-pre-propose-base` source is not
among the given files); for `FromUnderV250` it checks that the stored cw2
contract name matches and that the stored version is at least 2.4.1 and below
2.5.0, failing with a typed error otherwise. -/
def base_migrate_check (stored_name : String) (v : Version) :
    Except PreProposeError Unit :=
  if stored_name == CONTRACT_NAME && v.major == 2 && v.minor == 4 &&
      1 ≤ v.patch then
    .ok ()
  else .error .invalidVersion

/-- The storage `migrate` reads and rewrites: the stored cw2 version info, the
stored approver, and the pending/completed proposal maps under the legacy
schema (association lists ordered by id, as `range` ascending returns
them). -/
structure MigrateState (M : Type) where
  stored_name : String
  stored_version : Version
  approver : String
  pending_v241 : List (Nat × ProposalV241 M)
  completed_v241 : List (Nat × ProposalV241 M)
deriving Repr, DecidableEq

/-- The storage after a successful migration: the proposal maps under the
current schema. -/
structure MigrateOk (M : Type) where
  pending : List (Nat × Proposal M)
  completed : List (Nat × Proposal M)
deriving Repr, DecidableEq

/-- The rewrite of one pending proposal in `migrate`: the status is reset to
`Pending`, the stored approver is added, and all other fields are carried
over. -/
def convertPending {M : Type} (approver : String) (p : ProposalV241 M) :
    Proposal M :=
  ⟨.pending, p.approval_id, approver, p.proposer, convertMsg p.msg,
   p.deposit.map convertDeposit⟩

/-- The rewrite of one completed proposal in `migrate`: `Approved` and
`Rejected` statuses are carried over and the stored approver added; a
completed proposal in `Pending` status is a typed error. -/
def convertCompleted {M : Type} (approver : String) (p : ProposalV241 M) :
    Except PreProposeError (Proposal M) :=
  match p.status with
  | .pending => .error (.std "unexpected proposal status")
  | .approved created_proposal_id =>
      .ok ⟨.approved created_proposal_id, p.approval_id, approver, p.proposer,
        convertMsg p.msg, p.deposit.map convertDeposit⟩
  | .rejected =>
      .ok ⟨.rejected, p.approval_id, approver, p.proposer, convertMsg p.msg,
        p.deposit.map convertDeposit⟩

/-- The loop over the stored completed proposals in `migrate`, in ascending
id order, stopping at the first completed proposal found in `Pending`
status. -/
def convertCompletedList {M : Type} (approver : String) :
    List (Nat × ProposalV241 M) →
    Except PreProposeError (List (Nat × Proposal M))
  | [] => .ok []
  | (id, p) :: rest =>
    match convertCompleted approver p with
    | .error e => .error e
    | .ok q =>
      match convertCompletedList approver rest with
      | .error e => .error e
      | .ok rest2 => .ok ((id, q) :: rest2)

/-- The `migrate` entry point of `dao-pre-propose-approval-single`: the base
migrate result is computed first; under `FromUnderV250` every stored legacy
proposal is rewritten into the current schema (an error from the completed
loop is returned immediately, before the base result); any other variant is
rejected as not implemented. -/
def migrate {M : Type} (st : MigrateState M) (msg : MigrateMsg) :
    Except PreProposeError (MigrateOk M) :=
  let res := base_migrate_check st.stored_name st.stored_version
  match msg with
  | .fromUnderV250 =>
    let newPending :=
      st.pending_v241.map (fun ip => (ip.1, convertPending st.approver ip.2))
    match convertCompletedList st.approver st.completed_v241 with
    | .error e => .error e
    | .ok newCompleted =>
      match res with
      | .error e => .error e
      | .ok _ => .ok ⟨newPending, newCompleted⟩
  | .other => .error (.std "not implemented")

/-- Field preservation of the migration rewrite: id-independent fields of a
legacy proposal are carried over unchanged and the stored approver is
added. -/
def preservesFields {M : Type} (approver : String) (p : ProposalV241 M)
    (q : Proposal M) : Prop :=
  q.approval_id = p.approval_id ∧ q.approver = approver ∧
  q.proposer = p.proposer ∧ q.msg.title = p.msg.title ∧
  q.msg.description = p.msg.description ∧ q.msg.msgs = p.msg.msgs ∧
  q.msg.proposer = p.msg.proposer ∧
  q.msg.vote = p.msg.vote.map convertAutoVote ∧
  q.deposit = p.deposit.map convertDeposit

theorem convertPending_preserves {M : Type} (approver : String)
    (p : ProposalV241 M) :
    preservesFields approver p (convertPending approver p) :=
  ⟨rfl, rfl, rfl, rfl, rfl, rfl, rfl, rfl, rfl⟩

theorem convertCompleted_ok {M : Type} (approver : String) (p : ProposalV241 M)
    (q : Proposal M) (hq : convertCompleted approver p = .ok q) :
    preservesFields approver p q ∧
    (∀ cid, p.status = .approved cid → q.status = .approved cid) ∧
    (p.status = .rejected → q.status = .rejected) := by
  cases hst : p.status <;> simp [convertCompleted, hst] at hq <;> subst hq
  · exact ⟨⟨rfl, rfl, rfl, rfl, rfl, rfl, rfl, rfl, rfl⟩,
      by simp [hst], by simp [hst]⟩
  · exact ⟨⟨rfl, rfl, rfl, rfl, rfl, rfl, rfl, rfl, rfl⟩,
      by simp [hst], by simp [hst]⟩

theorem convertCompletedList_ok {M : Type} (approver : String)
    (l : List (Nat × ProposalV241 M))
    (hnp : ∀ ip ∈ l, ip.2.status ≠ ProposalStatusV241.pending) :
    ∃ out, convertCompletedList approver l = .ok out ∧
      List.Forall₂ (fun (ip : Nat × ProposalV241 M) (op : Nat × Proposal M) =>
        op.1 = ip.1 ∧ preservesFields approver ip.2 op.2 ∧
        (∀ cid, ip.2.status = .approved cid → op.2.status = .approved cid) ∧
        (ip.2.status = .rejected → op.2.status = .rejected)) l out := by
  induction l with
  | nil => exact ⟨[], rfl, List.Forall₂.nil⟩
  | cons hd tl ih =>
    obtain ⟨id, p⟩ := hd
    have hhd : p.status ≠ ProposalStatusV241.pending :=
      hnp (id, p) (List.mem_cons_self _ _)
    obtain ⟨out, hout, hall⟩ :=
      ih (fun ip hip => hnp ip (List.mem_cons_of_mem _ hip))
    cases hst : p.status with
    | pending => exact absurd hst hhd
    | approved cid =>
      refine ⟨(id, ⟨.approved cid, p.approval_id, approver, p.proposer,
        convertMsg p.msg, p.deposit.map convertDeposit⟩) :: out, ?_, ?_⟩
      · simp [convertCompletedList, convertCompleted, hst, hout]
      · exact List.Forall₂.cons
          ⟨rfl, ⟨rfl, rfl, rfl, rfl, rfl, rfl, rfl, rfl, rfl⟩,
            by simp [hst], by simp [hst]⟩ hall
    | rejected =>
      refine ⟨(id, ⟨.rejected, p.approval_id, approver, p.proposer,
        convertMsg p.msg, p.deposit.map convertDeposit⟩) :: out, ?_, ?_⟩
      · simp [convertCompletedList, convertCompleted, hst, hout]
      · exact List.Forall₂.cons
          ⟨rfl, ⟨rfl, rfl, rfl, rfl, rfl, rfl, rfl, rfl, rfl⟩,
            by simp [hst], by simp [hst]⟩ hall

theorem convertCompletedList_error {M : Type} (approver : String)
    (l : List (Nat × ProposalV241 M))
    (hp : ∃ ip ∈ l, ip.2.status = ProposalStatusV241.pending) :
    convertCompletedList approver l =
      .error (.std "unexpected proposal status") := by
  induction l with
  | nil => simp at hp
  | cons hd tl ih =>
    obtain ⟨id, p⟩ := hd
    obtain ⟨ip, hmem, hst⟩ := hp
    rcases List.mem_cons.mp hmem with heq | hmem2
    · subst heq
      have hst2 : p.status = ProposalStatusV241.pending := hst
      simp [convertCompletedList, convertCompleted, hst2]
    · cases hps : p.status with
      | pending => simp [convertCompletedList, convertCompleted, hps]
      | approved cid =>
        simp [convertCompletedList, convertCompleted, hps,
          ih ⟨ip, hmem2, hst⟩]
      | rejected =>
        simp [convertCompletedList, convertCompleted, hps,
          ih ⟨ip, hmem2, hst⟩]

/-- Claim C8: under the `FromUnderV250` variant, with a matching stored
contract version and no completed proposal stuck in `Pending` status, the
migration rewrites every legacy pending and completed proposal into the
current schema, adding the stored approver and preserving id, approval id,
proposer, propose message, and deposit; any other migrate variant, a
completed proposal found in `Pending` status, and a stored contract version
outside the expected range each produce a typed error. -/
theorem migrate_from_under_v250 {M : Type} (st st2 st3 : MigrateState M)
    (hver : base_migrate_check st.stored_name st.stored_version = .ok ())
    (hnp : ∀ ip ∈ st.completed_v241,
      ip.2.status ≠ ProposalStatusV241.pending) :
    (∃ out : MigrateOk M, migrate st .fromUnderV250 = .ok out ∧
      List.Forall₂ (fun (ip : Nat × ProposalV241 M) (op : Nat × Proposal M) =>
        op.1 = ip.1 ∧ op.2.status = .pending ∧
        preservesFields st.approver ip.2 op.2)
        st.pending_v241 out.pending ∧
      List.Forall₂ (fun (ip : Nat × ProposalV241 M) (op : Nat × Proposal M) =>
        op.1 = ip.1 ∧ preservesFields st.approver ip.2 op.2 ∧
        (∀ cid, ip.2.status = .approved cid → op.2.status = .approved cid) ∧
        (ip.2.status = .rejected → op.2.status = .rejected))
        st.completed_v241 out.completed) ∧
    (migrate st2 .other = .error (.std "not implemented")) ∧
    ((∃ ip ∈ st2.completed_v241, ip.2.status = ProposalStatusV241.pending) →
      migrate st2 .fromUnderV250 =
        .error (.std "unexpected proposal status")) ∧
    (base_migrate_check st3.stored_name st3.stored_version =
        .error .invalidVersion →
      (∀ ip ∈ st3.completed_v241,
        ip.2.status ≠ ProposalStatusV241.pending) →
      migrate st3 .fromUnderV250 = .error .invalidVersion) := by
  refine ⟨?_, rfl, ?_, ?_⟩
  · obtain ⟨out, hout, hall⟩ :=
      convertCompletedList_ok st.approver st.completed_v241 hnp
    refine ⟨⟨st.pending_v241.map
      (fun ip => (ip.1, convertPending st.approver ip.2)), out⟩, ?_, ?_, hall⟩
    · simp [migrate, hout, hver]
    · clear hout hall
      induction st.pending_v241 with
      | nil => exact List.Forall₂.nil
      | cons hd tl ih =>
        exact List.Forall₂.cons
          ⟨rfl, rfl, convertPending_preserves st.approver hd.2⟩ ih
  · intro hp
    simp [migrate, convertCompletedList_error st2.approver st2.completed_v241
      hp]
  · intro hbad hnp3
    obtain ⟨out3, hout3, _⟩ :=
      convertCompletedList_ok st3.approver st3.completed_v241 hnp3
    simp [migrate, hout3, hbad]

/-- A concrete legacy storage with one pending and one approved proposal and
a matching stored version. -/
def sampleGoodState : MigrateState Unit :=
  ⟨CONTRACT_NAME, ⟨2, 4, 1⟩, "approverA",
    [(1, ⟨.pending, 1, "alice", ⟨"t1", "d1", [], some "alice", none⟩,
      none⟩)],
    [(2, ⟨.approved 7, 2, "bob", ⟨"t2", "d2", [()], none,
      some ⟨.yes, some "because"⟩⟩,
      some ⟨.native "ujuno", 100, .onlyPassed⟩⟩)]⟩

/-- A concrete legacy storage holding a completed proposal still in pending
status. -/
def samplePendingCompletedState : MigrateState Unit :=
  ⟨CONTRACT_NAME, ⟨2, 4, 1⟩, "approverA", [],
    [(3, ⟨.pending, 3, "carol", ⟨"t3", "d3", [], none, none⟩, none⟩)]⟩

/-- A concrete storage whose stored version 2.5.0 is outside the migratable
range. -/
def sampleBadVersionState : MigrateState Unit :=
  ⟨CONTRACT_NAME, ⟨2, 5, 0⟩, "approverA", [], []⟩

/-- Witness for claim C8: a concrete migration of one pending and one
approved legacy proposal succeeds and adds the approver, a completed proposal
in pending status is rejected, another migrate variant is rejected as not
implemented, and a stored version 2.5.0 is rejected as invalid. -/
theorem migrate_from_under_v250_witness :
    migrate sampleGoodState .fromUnderV250 =
      .ok ⟨[(1, ⟨.pending, 1, "approverA", "alice",
              ⟨"t1", "d1", [], some "alice", none⟩, none⟩)],
           [(2, ⟨.approved 7, 2, "approverA", "bob",
              ⟨"t2", "d2", [()], none, some ⟨.yes, some "because"⟩⟩,
              some ⟨.native "ujuno", 100, .onlyPassed⟩⟩)]⟩ ∧
    migrate samplePendingCompletedState .fromUnderV250 =
      .error (.std "unexpected proposal status") ∧
    migrate samplePendingCompletedState .other =
      .error (.std "not implemented") ∧
    migrate sampleBadVersionState .fromUnderV250 =
      .error .invalidVersion := by
  have h := migrate_from_under_v250 sampleGoodState
    samplePendingCompletedState sampleBadVersionState
    (by decide) (by decide)
  refine ⟨by decide, ?_, h.2.1, h.2.2.2 (by decide) (by decide)⟩
  exact h.2.2.1 ⟨(3, ⟨.pending, 3, "carol", ⟨"t3", "d3", [], none, none⟩,
    none⟩), by decide, rfl⟩

end ApprovalSingle

namespace Cw721Controllers

/-- `cw_utils::Expiration`. -/
inductive Expiration where
  | atHeight (h : Nat)
  | atTime (t : Nat)
  | never
deriving Repr, DecidableEq

/-- `cosmwasm_std::BlockInfo`, restricted to the fields `is_expired` reads. -/
structure BlockInfo where
  height : Nat
  time : Nat
deriving Repr, DecidableEq

/-- `Expiration::is_expired`: an `AtHeight`/`AtTime` expiration has passed
once the block height/time reaches it; `Never` never expires. -/
def Expiration.is_expired (e : Expiration) (b : BlockInfo) : Bool :=
  match e with
  | .atHeight h => decide (h ≤ b.height)
  | .atTime t => decide (t ≤ b.time)
  | .never => false

/-- `cw721_controllers::NftClaimError`, without the transparent `Std`
wrapper. -/
inductive NftClaimError where
  | notFound (token_id : String)
  | notReady (token_id : String)
deriving Repr, DecidableEq

/-- The `NftClaims` storage restricted to one address, as a key/value store
from token id to the claim's release expiration. -/
def ClaimsMap : Type := String → Option Expiration

/-- `Map::may_load` on the claims of the address. -/
def ClaimsMap.may_load (m : ClaimsMap) (token_id : String) :
    Option Expiration :=
  m token_id

/-- `Map::remove` on the claims of the address. -/
def ClaimsMap.remove (m : ClaimsMap) (token_id : String) : ClaimsMap :=
  fun id2 => if id2 = token_id then none else m id2

/-- `cw721_controllers::NftClaims::claim_nfts`: iterate over the listed token
ids in order; an id with an expired claim has its claim removed from storage
and processing continues; an id with no stored claim stops with `NotFound`,
an id whose claim has not expired stops with `NotReady`. The function returns
the storage as it stands when it stops — removals already performed are not
rolled back by the function itself. -/
def claim_nfts (storage : ClaimsMap) (token_ids : List String)
    (block : BlockInfo) : ClaimsMap × Except NftClaimError Unit :=
  match token_ids with
  | [] => (storage, .ok ())
  | token_id :: rest =>
    match storage.may_load token_id with
    | some expiration =>
      if expiration.is_expired block then
        claim_nfts (storage.remove token_id) rest block
      else (storage, .error (.notReady token_id))
    | none => (storage, .error (.notFound token_id))

/-- The token id has a stored claim whose release expiration has passed. -/
def claimExpired (s : ClaimsMap) (b : BlockInfo) (token_id : String) : Prop :=
  ∃ e, s.may_load token_id = some e ∧ e.is_expired b = true

theorem may_load_remove (s : ClaimsMap) (id id2 : String) :
    (s.remove id).may_load id2 =
      if id2 = id then none else s.may_load id2 := rfl

theorem claimExpired_remove (s : ClaimsMap) (b : BlockInfo) (id id2 : String)
    (hne : id2 ≠ id) :
    claimExpired (s.remove id) b id2 ↔ claimExpired s b id2 := by
  unfold claimExpired
  rw [may_load_remove, if_neg hne]

/-- Claim C10 (amended with pairwise-distinct token ids): `claim_nfts`
succeeds iff every listed token id has a stored claim whose release
expiration has passed at the given block, in which case exactly the listed
claims are removed; otherwise it stops at the earliest failing id, returning
`NotFound` when that id has no stored claim and `NotReady` when its claim has
not yet expired, and at that point the claims of the expired ids listed
before it have already been removed from storage — the function performs no
rollback. -/
theorem claim_nfts_spec (s : ClaimsMap) (ids : List String) (b : BlockInfo)
    (hnd : ids.Nodup) :
    ((claim_nfts s ids b).2 = .ok () ↔ ∀ id ∈ ids, claimExpired s b id) ∧
    ((claim_nfts s ids b).2 = .ok () →
      ∀ id, (claim_nfts s ids b).1.may_load id =
        if id ∈ ids then none else s.may_load id) ∧
    (∀ err, (claim_nfts s ids b).2 = .error err →
      ∃ pre bad post, ids = pre ++ bad :: post ∧
        (∀ id ∈ pre, claimExpired s b id) ∧
        ¬ claimExpired s b bad ∧
        err = (match s.may_load bad with
               | none => NftClaimError.notFound bad
               | some _ => NftClaimError.notReady bad) ∧
        (∀ id, (claim_nfts s ids b).1.may_load id =
          if id ∈ pre then none else s.may_load id)) := by
  induction ids generalizing s with
  | nil =>
    refine ⟨by simp [claim_nfts], fun _ id => by simp [claim_nfts], ?_⟩
    intro err herr
    simp [claim_nfts] at herr
  | cons hd tl ih =>
    have hnd2 := List.nodup_cons.mp hnd
    cases hload : s.may_load hd with
    | none =>
      refine ⟨?_, ?_, ?_⟩
      · constructor
        · intro hok
          simp [claim_nfts, hload] at hok
        · intro hall
          obtain ⟨e, he, _⟩ := hall hd (List.mem_cons_self _ _)
          rw [hload] at he
          exact Option.noConfusion he
      · intro hok
        simp [claim_nfts, hload] at hok
      · intro err herr
        simp only [claim_nfts, hload] at herr
        refine ⟨[], hd, tl, rfl, by simp, ?_, ?_, ?_⟩
        · rintro ⟨e, he, _⟩
          rw [hload] at he
          exact Option.noConfusion he
        · rw [hload]
          exact (Except.error.injEq _ _ ▸ herr).symm
        · intro id
          simp [claim_nfts, hload]
    | some e =>
      cases hexp : e.is_expired b with
      | false =>
        refine ⟨?_, ?_, ?_⟩
        · constructor
          · intro hok
            simp [claim_nfts, hload, hexp] at hok
          · intro hall
            obtain ⟨e2, he2, hex2⟩ := hall hd (List.mem_cons_self _ _)
            rw [hload] at he2
            cases he2
            rw [hexp] at hex2
            exact Bool.noConfusion hex2
        · intro hok
          simp [claim_nfts, hload, hexp] at hok
        · intro err herr
          simp only [claim_nfts, hload, hexp, if_false, Bool.false_eq_true]
            at herr
          refine ⟨[], hd, tl, rfl, by simp, ?_, ?_, ?_⟩
          · rintro ⟨e2, he2, hex2⟩
            rw [hload] at he2
            cases he2
            rw [hexp] at hex2
            exact Bool.noConfusion hex2
          · rw [hload]
            exact (Except.error.injEq _ _ ▸ herr).symm
          · intro id
            simp [claim_nfts, hload, hexp]
      | true =>
        have hstep : claim_nfts s (hd :: tl) b =
            claim_nfts (s.remove hd) tl b := by
          simp [claim_nfts, hload, hexp]
        have ihr := ih (s.remove hd) hnd2.2
        refine ⟨?_, ?_, ?_⟩
        · rw [hstep, ihr.1]
          constructor
          · intro hall id hid
            rcases List.mem_cons.mp hid with rfl | hid2
            · exact ⟨e, hload, hexp⟩
            · have hne : id ≠ hd := fun hc => hnd2.1 (hc ▸ hid2)
              exact (claimExpired_remove s b hd id hne).mp (hall id hid2)
          · intro hall id hid
            have hne : id ≠ hd := fun hc => hnd2.1 (hc ▸ hid)
            exact (claimExpired_remove s b hd id hne).mpr
              (hall id (List.mem_cons_of_mem _ hid))
        · intro hok id
          rw [hstep] at hok ⊢
          rw [ihr.2.1 hok id, may_load_remove]
          by_cases hih : id = hd
          · subst hih
            have : id ∉ tl := hnd2.1
            simp [this]
          · by_cases hit : id ∈ tl <;> simp [hih, hit]
        · intro err herr
          rw [hstep] at herr
          obtain ⟨pre, bad, post, htl, hpre, hbad, herrv, hstor⟩ :=
            ihr.2.2 err herr
          have hbadtl : bad ∈ tl := htl ▸ (by simp)
          have hbadne : bad ≠ hd := fun hc => hnd2.1 (hc ▸ hbadtl)
          have hbadload : (s.remove hd).may_load bad = s.may_load bad := by
            rw [may_load_remove, if_neg hbadne]
          refine ⟨hd :: pre, bad, post, by rw [htl]; rfl, ?_, ?_, ?_, ?_⟩
          · intro id hid
            rcases List.mem_cons.mp hid with rfl | hid2
            · exact ⟨e, hload, hexp⟩
            · have hidtl : id ∈ tl := htl ▸ List.mem_append_left _ hid2
              have hne : id ≠ hd := fun hc => hnd2.1 (hc ▸ hidtl)
              exact (claimExpired_remove s b hd id hne).mp (hpre id hid2)
          · exact fun hc =>
              hbad ((claimExpired_remove s b hd bad hbadne).mpr hc)
          · rw [← hbadload]
            exact herrv
          · intro id
            rw [hstep, hstor id, may_load_remove]
            by_cases hih : id = hd
            · subst hih
              have hnpre : id ∉ pre := fun hc =>
                hnd2.1 (htl ▸ List.mem_append_left _ hc)
              simp [hnpre]
            · by_cases hip : id ∈ pre <;> simp [hih, hip]

/-- Counterexample for claim C10: with a single stored claim for token `a`,
already expired, the list `[a, a]` — in which every listed id has a stored
claim whose release expiration has passed — does not succeed: the first pass
removes the claim and the second occurrence fails with `NotFound`, so the
"succeeds iff every listed id has an expired stored claim" equivalence is
false for lists with repeated ids. -/
theorem claim_nfts_duplicate_counterexample :
    ClaimsMap.may_load
      (fun id => if id = "a" then some (Expiration.atHeight 5) else none)
      "a" = some (Expiration.atHeight 5) ∧
    (Expiration.atHeight 5).is_expired ⟨10, 0⟩ = true ∧
    (∀ id ∈ ["a", "a"], id = "a") ∧
    (claim_nfts
        (fun id => if id = "a" then some (Expiration.atHeight 5) else none)
        ["a", "a"] ⟨10, 0⟩).2 =
      .error (.notFound "a") := by
  refine ⟨rfl, by decide, by decide, ?_⟩
  decide

/-- Witness for claim C10: token `a` expired at height 5, token `b` not
until height 100; claiming `[a, b]` at height 10 stops with `NotReady b`, and
by then the claim for `a` is already removed while `b`'s claim is still
stored. -/
theorem claim_nfts_spec_witness :
    (claim_nfts
        (fun id => if id = "a" then some (Expiration.atHeight 5) else
          if id = "b" then some (Expiration.atHeight 100) else none)
        ["a", "b"] ⟨10, 0⟩).2 = .error (.notReady "b") ∧
    (claim_nfts
        (fun id => if id = "a" then some (Expiration.atHeight 5) else
          if id = "b" then some (Expiration.atHeight 100) else none)
        ["a", "b"] ⟨10, 0⟩).1.may_load "a" = none ∧
    (claim_nfts
        (fun id => if id = "a" then some (Expiration.atHeight 5) else
          if id = "b" then some (Expiration.atHeight 100) else none)
        ["a", "b"] ⟨10, 0⟩).1.may_load "b" =
      some (Expiration.atHeight 100) ∧
    (∃ pre bad post, ["a", "b"] = pre ++ bad :: post ∧
      (∀ id ∈ pre,
        claimExpired
          (fun id2 => if id2 = "a" then some (Expiration.atHeight 5) else
            if id2 = "b" then some (Expiration.atHeight 100) else none)
          ⟨10, 0⟩ id) ∧
      ¬ claimExpired
          (fun id2 => if id2 = "a" then some (Expiration.atHeight 5) else
            if id2 = "b" then some (Expiration.atHeight 100) else none)
          ⟨10, 0⟩ bad) := by
  refine ⟨by decide, by decide, by decide, ?_⟩
  obtain ⟨pre, bad, post, hsplit, hpre, hbad, -, -⟩ :=
    (claim_nfts_spec
      (fun id => if id = "a" then some (Expiration.atHeight 5) else
        if id = "b" then some (Expiration.atHeight 100) else none)
      ["a", "b"] ⟨10, 0⟩ (by decide)).2.2
      (.notReady "b") (by decide)
  exact ⟨pre, bad, post, hsplit, hpre, hbad⟩

end Cw721Controllers

end DaoVoting
